import Mathlib

/-!
# PathExplorer: checkpoint engine, instruction catalog, run start-up

A shallow embedding of

* `version_2/src/engine/checkpoint.cpp` (checkpoint construction, change log,
  input perturbation and restoration),
* `version_1/src/operation/instrumentation.cpp` (instruction catalog and the
  per-phase registration of analysis calls, module-load hooks),
* `src/analysis/cbranch.cpp` (the conditional-branch class),
* `version_1/src/path_explorer.cpp` (run start-up),

followed by the properties proved about them.

Machine integers are natural numbers; arithmetic on `ADDRINT` is reduced modulo
`2 ^ bits`, where `bits` is the address width of the instrumented target.
-/

namespace PathExplorer

/-! ## Machine types and memory -/

/-- Pin's address-sized unsigned integer. Its values are below `2 ^ bits`. -/
abbrev ADDRINT := Nat

/-- One byte. -/
abbrev UINT8 := Nat

/-- Unsigned 32-bit integer. -/
abbrev UINT32 := Nat

/-- Pin's register identifier (`REG`). -/
abbrev REG := Nat

/-- Saved register file, an opaque snapshot copied by `PIN_SaveContext`. -/
abbrev CONTEXT := List Nat

/-- Live memory of the traced process: `mem a` is `*(reinterpret_cast<UINT8*>(a))`. -/
abbrev Memory := ADDRINT → UINT8

/-- The store `*(reinterpret_cast<UINT8*>(a)) = v`. -/
def Memory.write (mem : Memory) (a : ADDRINT) (v : UINT8) : Memory :=
  fun x => if x = a then v else mem x

/-- An address-keyed associative container (`std::map`, `boost::unordered_map`),
seen through its lookup: `none` is an absent key. -/
abbrev addr_map (β : Type) := ADDRINT → Option β

/-- A default-constructed (empty) container. -/
def addr_map.empty {β : Type} : addr_map β := fun _ => none

/-- The lookup `m.find(k)`; `none` stands for `m.end()`. -/
def addr_map.find {β : Type} (m : addr_map β) (k : ADDRINT) : Option β := m k

/-- The assignment `m[k] = v`: inserts the key or overwrites its value. -/
def addr_map.assign {β : Type} (m : addr_map β) (k : ADDRINT) (v : β) : addr_map β :=
  fun x => if x = k then some v else m x

/-- The read `m[k]` on a byte-valued container: an absent key is first inserted
with the value-initialised byte `0`. Returns the value read and the container. -/
def addr_map.index (m : addr_map UINT8) (k : ADDRINT) : UINT8 × addr_map UINT8 :=
  match m k with
  | some v => (v, m)
  | none => (0, addr_map.assign m k 0)

/-! ## version_2/src/engine/checkpoint.cpp -/

/-- The value of an instruction operand, a `boost::variant` holding either a
memory address (`ADDRINT`) or a register (`REG`). -/
inductive insoperand_value where
  | addr (a : ADDRINT)
  | reg (r : REG)
deriving DecidableEq, Repr

/-- An instruction operand (`ptr_insoperand_t` points to one). -/
structure insoperand where
  value : insoperand_value
deriving DecidableEq, Repr

/-- The members of `engine::checkpoint` used by checkpoint.cpp. -/
structure checkpoint where
  cpu_context : CONTEXT
  memory_state_at : addr_map UINT8
  memory_change_log : addr_map UINT8
  memory_addresses_to_modify : List ADDRINT

/-- The loop of the constructor `checkpoint::checkpoint` over the operands
registered for the current execution order: each operand whose value is an
address gets `memory_state_at[mem_addr] = *mem_addr`. -/
def checkpoint_state_loop (mem : Memory) :
    List insoperand → addr_map UINT8 → addr_map UINT8
  | [], memory_state_at => memory_state_at
  | operand :: rest, memory_state_at =>
    match operand.value with
    | insoperand_value.addr mem_addr =>
      checkpoint_state_loop mem rest (addr_map.assign memory_state_at mem_addr (mem mem_addr))
    | insoperand_value.reg _ =>
      checkpoint_state_loop mem rest memory_state_at

/-- The constructor `checkpoint::checkpoint(CONTEXT* current_context)`. It
reads the globals `outerface_at_execorder` and `current_execorder` and the live
memory; the set of operands is given in its iteration order. The containers of
the new object start empty. -/
def checkpoint.new (current_context : CONTEXT)
    (outerface_at_execorder : Nat → List insoperand) (current_execorder : Nat)
    (mem : Memory) : checkpoint :=
  { cpu_context := current_context
    memory_state_at :=
      checkpoint_state_loop mem (outerface_at_execorder current_execorder) addr_map.empty
    memory_change_log := addr_map.empty
    memory_addresses_to_modify := [] }

/-- The `for` loop of `checkpoint::log_before_execution`, entered with the
current `mem_addr`. The increment cannot wrap: inside the body
`mem_addr < upper_bound_address`, and the bound is itself an `ADDRINT`. -/
def log_before_execution_loop (mem : Memory) (upper_bound_address : ADDRINT)
    (mem_addr : ADDRINT) (memory_change_log : addr_map UINT8) : addr_map UINT8 :=
  if _h : mem_addr < upper_bound_address then
    log_before_execution_loop mem upper_bound_address (mem_addr + 1)
      (match addr_map.find memory_change_log mem_addr with
       | none => addr_map.assign memory_change_log mem_addr (mem mem_addr)
       | some _ => memory_change_log)
  else memory_change_log
termination_by upper_bound_address - mem_addr
decreasing_by
  have hlt : mem_addr < upper_bound_address := _h
  exact Nat.sub_lt_sub_left hlt (Nat.lt_succ_self mem_addr)

/-- The method `checkpoint::log_before_execution(memory_written_address,
memory_written_length)` on a target with `bits`-bit addresses: the upper bound
is computed in `ADDRINT` arithmetic. -/
def log_before_execution (bits : Nat) (cp : checkpoint) (mem : Memory)
    (memory_written_address : ADDRINT) (memory_written_length : UINT8) : checkpoint :=
  let upper_bound_address := (memory_written_address + memory_written_length) % 2 ^ bits
  { cp with
    memory_change_log :=
      log_before_execution_loop mem upper_bound_address memory_written_address
        cp.memory_change_log }

/-- The loop of `checkpoint::modify_input` over `memory_addresses_to_modify`,
in iteration order. `random_uint8 n` is the byte returned by the `n`-th call
of `utils::random_uint8()`; `n` counts the calls made so far. -/
def modify_input_loop (random_uint8 : Nat → UINT8) :
    List ADDRINT → Nat → Memory → Memory
  | [], _, mem => mem
  | mem_addr :: rest, n, mem =>
    modify_input_loop random_uint8 rest (n + 1)
      (Memory.write mem mem_addr (random_uint8 n % 256))

/-- The method `checkpoint::modify_input()`. -/
def modify_input (cp : checkpoint) (random_uint8 : Nat → UINT8) (mem : Memory) : Memory :=
  modify_input_loop random_uint8 cp.memory_addresses_to_modify 0 mem

/-- The loop of `checkpoint::restore_input`: each address receives
`original_msgstate_at_address[addr]`. The state is the pair of the global
container (which `operator[]` may extend) and the memory. -/
def restore_input_loop :
    List ADDRINT → addr_map UINT8 × Memory → addr_map UINT8 × Memory
  | [], st => st
  | mem_addr :: rest, (original_msgstate_at_address, mem) =>
    let r := addr_map.index original_msgstate_at_address mem_addr
    restore_input_loop rest (r.2, Memory.write mem mem_addr r.1)

/-- The method `checkpoint::restore_input()`, acting on the global
`original_msgstate_at_address` and on memory. -/
def restore_input (cp : checkpoint) (original_msgstate_at_address : addr_map UINT8)
    (mem : Memory) : addr_map UINT8 × Memory :=
  restore_input_loop cp.memory_addresses_to_modify (original_msgstate_at_address, mem)

/-! ## src/analysis/cbranch.cpp -/

/-- The attributes of class `instruction` read by the instrumentation code:
the address and the flags decoded from the Pin instruction. -/
structure instruction where
  address : ADDRINT
  is_syscall : Bool
  is_mem_read : Bool
  has_mem_read2 : Bool
  is_mem_write : Bool
  is_cond_direct_cf : Bool
deriving DecidableEq, Repr

/-- The conditional-branch class `cbranch`, derived from `instruction`, with
the two members its constructors assign. -/
structure cbranch extends instruction where
  is_resolved : Bool
  is_bypassed : Bool
deriving DecidableEq, Repr

/-- The constructor `cbranch::cbranch(const instruction& other_instruction)`:
the base part is copy-constructed, then both flags are cleared. -/
def cbranch.of_instruction (other_instruction : instruction) : cbranch :=
  { other_instruction with
    is_resolved := false
    is_bypassed := false }

/-- The constructor `cbranch::cbranch(const INS& current_instruction)`: the base
part is built by the `instruction(const INS&)` constructor, passed in as
`new_instruction`, then both flags are cleared. -/
def cbranch.of_INS {INS : Type} (new_instruction : INS → instruction)
    (current_instruction : INS) : cbranch :=
  { new_instruction current_instruction with
    is_resolved := false
    is_bypassed := false }

/-! ## version_1/src/operation/instrumentation.cpp -/

/-- The conditional-branch class under the name instrumentation.cpp uses for
it; `cond_direct_instruction(*examined_ins)` is the converting constructor
`cbranch.of_instruction`. -/
abbrev cond_direct_instruction := cbranch

/-- What a `ptr_instruction_t` stored in the catalog points to: an object of
the base class or of the conditional-branch class. -/
inductive ptr_instruction_t where
  | to_instruction (ins : instruction)
  | to_cond_direct_instruction (ins : cond_direct_instruction)
deriving DecidableEq, Repr

/-- The values of `current_running_phase` named in instrumentation.cpp. -/
inductive running_phase where
  | capturing_phase
  | tainting_state
  | rollbacking_state
deriving DecidableEq, Repr

/-- Where Pin places an inserted call. -/
inductive IPOINT where
  | IPOINT_BEFORE
  | IPOINT_AFTER
deriving DecidableEq, Repr

/-- The analysis routines passed as `AFUNPTR`. -/
inductive AFUNPTR where
  | tainting_syscall_instruction
  | tainting_general_instruction
  | tainting_mem_read_instruction
  | tainting_mem_write_instruction
  | tainting_graphical_propagation
  | rollbacking_generic_instruction
  | rollbacking_control_flow_instruction
  | rollbacking_mem_write_instruction
  | capturing_before_recvs
  | capturing_after_recvs
  | capturing_before_wsarecvs
  | capturing_after_wsarecvs
deriving DecidableEq, Repr

/-- The argument descriptors passed to the inserted calls (the closing
`IARG_END` is the end of the list). -/
inductive IARG_TYPE where
  | IARG_INST_PTR
  | IARG_MEMORYREAD_EA
  | IARG_MEMORYREAD2_EA
  | IARG_MEMORYREAD_SIZE
  | IARG_MEMORYWRITE_EA
  | IARG_MEMORYWRITE_SIZE
  | IARG_CONTEXT
  | IARG_FUNCARG_ENTRYPOINT_VALUE (n : Nat)
  | IARG_FUNCRET_EXITPOINT_VALUE
deriving DecidableEq, Repr

/-- One call registered by `INS_InsertPredicatedCall` or `RTN_InsertCall`. -/
structure inserted_call where
  ipoint : IPOINT
  funptr : AFUNPTR
  args : List IARG_TYPE
deriving DecidableEq, Repr

/-- The function `exec_tainting_phase(ins, examined_ins)`: the calls it
inserts on `ins`, in insertion order. -/
def exec_tainting_phase (examined_ins : instruction) : List inserted_call :=
  (if examined_ins.is_syscall then
    [⟨IPOINT.IPOINT_BEFORE, AFUNPTR.tainting_syscall_instruction, [IARG_TYPE.IARG_INST_PTR]⟩]
  else
    [⟨IPOINT.IPOINT_BEFORE, AFUNPTR.tainting_general_instruction, [IARG_TYPE.IARG_INST_PTR]⟩]
    ++ (if examined_ins.is_mem_read then
          [⟨IPOINT.IPOINT_BEFORE, AFUNPTR.tainting_mem_read_instruction,
            [IARG_TYPE.IARG_INST_PTR, IARG_TYPE.IARG_MEMORYREAD_EA,
             IARG_TYPE.IARG_MEMORYREAD_SIZE, IARG_TYPE.IARG_CONTEXT]⟩]
          ++ (if examined_ins.has_mem_read2 then
                [⟨IPOINT.IPOINT_BEFORE, AFUNPTR.tainting_mem_read_instruction,
                  [IARG_TYPE.IARG_INST_PTR, IARG_TYPE.IARG_MEMORYREAD2_EA,
                   IARG_TYPE.IARG_MEMORYREAD_SIZE, IARG_TYPE.IARG_CONTEXT]⟩]
              else [])
        else [])
    ++ (if examined_ins.is_mem_write then
          [⟨IPOINT.IPOINT_BEFORE, AFUNPTR.tainting_mem_write_instruction,
            [IARG_TYPE.IARG_INST_PTR, IARG_TYPE.IARG_MEMORYWRITE_EA,
             IARG_TYPE.IARG_MEMORYWRITE_SIZE]⟩]
        else []))
  ++ [⟨IPOINT.IPOINT_BEFORE, AFUNPTR.tainting_graphical_propagation,
        [IARG_TYPE.IARG_INST_PTR]⟩]

/-- The function `exec_rollbacking_phase(ins, examined_ins)`: the calls it
inserts on `ins`, in insertion order. `ENABLE_FAST_ROLLBACK` tells whether
that macro is defined at compile time. -/
def exec_rollbacking_phase (ENABLE_FAST_ROLLBACK : Bool) (examined_ins : instruction) :
    List inserted_call :=
  [⟨IPOINT.IPOINT_BEFORE, AFUNPTR.rollbacking_generic_instruction, [IARG_TYPE.IARG_INST_PTR]⟩]
  ++ (if examined_ins.is_cond_direct_cf then
        [⟨IPOINT.IPOINT_BEFORE, AFUNPTR.rollbacking_control_flow_instruction,
          [IARG_TYPE.IARG_INST_PTR]⟩]
      else [])
  ++ (if !ENABLE_FAST_ROLLBACK then
        (if examined_ins.is_mem_write then
          [⟨IPOINT.IPOINT_BEFORE, AFUNPTR.rollbacking_mem_write_instruction,
            [IARG_TYPE.IARG_INST_PTR, IARG_TYPE.IARG_MEMORYWRITE_EA,
             IARG_TYPE.IARG_MEMORYWRITE_SIZE]⟩]
        else [])
      else [])

/-- The function `ins_instrumenter(ins, data)`. It reads the global
`current_running_phase`, updates the global catalog `ins_at_addr` and inserts
calls on `ins`; the result is the new catalog and the inserted calls.
`new_instruction` is the constructor `instruction(const INS&)`, which decodes
the Pin instruction. -/
def ins_instrumenter {INS : Type} (ENABLE_FAST_ROLLBACK : Bool)
    (new_instruction : INS → instruction) (current_running_phase : running_phase)
    (ins_at_addr : addr_map ptr_instruction_t) (ins : INS) :
    addr_map ptr_instruction_t × List inserted_call :=
  if current_running_phase ≠ running_phase.capturing_phase then
    let examined_ins := new_instruction ins
    let ins_at_addr1 :=
      addr_map.assign ins_at_addr examined_ins.address
        (ptr_instruction_t.to_instruction examined_ins)
    let ins_at_addr2 :=
      if examined_ins.is_cond_direct_cf then
        addr_map.assign ins_at_addr1 examined_ins.address
          (ptr_instruction_t.to_cond_direct_instruction
            (cbranch.of_instruction examined_ins))
      else ins_at_addr1
    match current_running_phase with
    | running_phase.tainting_state => (ins_at_addr2, exec_tainting_phase examined_ins)
    | running_phase.rollbacking_state =>
      (ins_at_addr2, exec_rollbacking_phase ENABLE_FAST_ROLLBACK examined_ins)
    | _ => (ins_at_addr2, [])
  else (ins_at_addr, [])

/-- The member `std::string::find_last_of(chars)` scanning downwards from
position `pos - 1`: the last position whose character is one of `chars`. -/
def find_last_of_below (str chars : List Char) : Nat → Option Nat
  | 0 => none
  | pos + 1 =>
    match str.get? pos with
    | some c => if c ∈ chars then some pos else find_last_of_below str chars pos
    | none => find_last_of_below str chars pos

/-- The member `std::string::find_last_of(const char*)` of the C++ library:
the position of the last character of the string that equals any one
character of `chars`; `none` stands for `std::string::npos`. -/
def find_last_of (str chars : String) : Option Nat :=
  find_last_of_below str.toList chars.toList str.toList.length

/-- A loaded image as `image_load_instrumenter` sees it: its `IMG_Name` and
the names for which `RTN_FindByName` returns a valid routine. -/
structure IMG where
  IMG_Name : String
  routine_names : List String
deriving DecidableEq, Repr

/-- A routine handle (`RTN`): the routine found, or the invalid handle. -/
abbrev RTN := Option String

/-- Pin's `RTN_FindByName(img, name)`. -/
def RTN_FindByName (img : IMG) (name : String) : RTN :=
  if name ∈ img.routine_names then some name else none

/-- Pin's `RTN_Valid(rtn)`. -/
def RTN_Valid (rtn : RTN) : Bool := rtn.isSome

/-- The function `instrument_recvs(recv_function)`: the calls inserted on the
routine. -/
def instrument_recvs (recv_function : RTN) : List (RTN × inserted_call) :=
  [(recv_function, ⟨IPOINT.IPOINT_BEFORE, AFUNPTR.capturing_before_recvs,
      [IARG_TYPE.IARG_FUNCARG_ENTRYPOINT_VALUE 1]⟩),
   (recv_function, ⟨IPOINT.IPOINT_AFTER, AFUNPTR.capturing_after_recvs,
      [IARG_TYPE.IARG_FUNCRET_EXITPOINT_VALUE]⟩)]

/-- The function `instrument_wsarecvs(wsarecv_function)`: the calls inserted on
the routine. -/
def instrument_wsarecvs (wsarecv_function : RTN) : List (RTN × inserted_call) :=
  [(wsarecv_function, ⟨IPOINT.IPOINT_BEFORE, AFUNPTR.capturing_before_wsarecvs,
      [IARG_TYPE.IARG_FUNCARG_ENTRYPOINT_VALUE 1]⟩),
   (wsarecv_function, ⟨IPOINT.IPOINT_AFTER, AFUNPTR.capturing_after_wsarecvs, []⟩)]

/-- The function `image_load_instrumenter(loaded_img, data)`: the calls it
inserts on routines of the image, in order. `WIN32` tells whether `_WIN32` or
`_WIN64` is defined at compile time. The lines written to the log file in
debug builds are left out. -/
def image_load_instrumenter (WIN32 : Bool) (loaded_img : IMG) : List (RTN × inserted_call) :=
  if WIN32 then
    let loaded_img_full_name := loaded_img.IMG_Name
    if find_last_of loaded_img_full_name "WS2_32.dll" ≠ none then
      let recv_func := RTN_FindByName loaded_img "recv"
      let recvfrom_func := RTN_FindByName loaded_img "recvfrom"
      let wsarecv_func := RTN_FindByName loaded_img "WSARecv"
      let wsarecvfrom_func := RTN_FindByName loaded_img "WSARecvFrom"
      (if RTN_Valid recv_func then instrument_recvs recv_func else [])
      ++ (if RTN_Valid recvfrom_func then instrument_recvs recvfrom_func else [])
      ++ (if RTN_Valid wsarecv_func then instrument_wsarecvs wsarecv_func else [])
      ++ (if RTN_Valid wsarecvfrom_func then instrument_wsarecvs wsarecvfrom_func else [])
    else []
  else []

/-! ## version_1/src/path_explorer.cpp -/

/-- A Pin command-line knob `KNOB<UINT32>` declared with `KNOB_MODE_WRITEONCE`:
the default value it is declared with (written as a decimal string in the
source) and the value given on the command line, if any. -/
structure KNOB where
  default_value : UINT32
  supplied : Option UINT32
deriving DecidableEq, Repr

/-- Pin's `KNOB<UINT32>::Value()`. -/
def KNOB.Value (knob : KNOB) : UINT32 :=
  match knob.supplied with
  | some v => v
  | none => knob.default_value

/-- The knob of option `-r`, default "7000". -/
def max_local_rollback_knob (supplied : Option UINT32) : KNOB := ⟨7000, supplied⟩

/-- The knob of option `-t`, default "90000". -/
def max_total_rollback_knob (supplied : Option UINT32) : KNOB := ⟨90000, supplied⟩

/-- The knob of option `-l`, default "100". -/
def max_trace_length_knob (supplied : Option UINT32) : KNOB := ⟨100, supplied⟩

/-- The knob of option `-i`, default "1". -/
def interested_input_order_knob (supplied : Option UINT32) : KNOB := ⟨1, supplied⟩

/-- What is written to the run log, one value per formatted write:
`config_echo` is "total rollback %d, local rollback %d, trace depth %d, "
with its three arguments, `summary` is "%d seconds elapsed, %d rollbacks used,
%d/%d/%d resolved/singular/total CFI." with its five arguments, the others are
the fixed texts. -/
inductive log_record where
  | config_echo (max_total_rollback_times max_local_rollback_times max_trace_size : UINT32)
  | fast_rollback_disabled
  | fast_rollback_enabled
  | fsa_reconstruction_enabled
  | separator_line
  | summary (seconds_elapsed : Int) (rollbacks_used : UINT32)
      (resolved_cfi_num singular_cfi_num : UINT32) (total_cfi_num : Nat)
deriving DecidableEq, Repr

/-- The state of the `std::ofstream` `log_file`: whether a file is open, the
fail bit, and for the open file its name and what has been written. -/
structure ofstream where
  is_open : Bool
  failbit : Bool
  file_name : String
  written : List log_record
deriving DecidableEq, Repr

/-- The member `std::ofstream::open(name, out | trunc)` of the C++ library.
`can_open` is the answer of the file system. Opening fails, setting the fail
bit, when the stream already has a file open or the file system refuses; on
success the error state is cleared and the file starts empty. -/
def ofstream_open (can_open : String → Bool) (stream : ofstream) (name : String) : ofstream :=
  if stream.is_open then { stream with failbit := true }
  else if can_open name then
    { is_open := true, failbit := false, file_name := name, written := [] }
  else { stream with failbit := true }

/-- A formatted write (`tfm::format(log_file, ...)`); a stream in error state
or without an open file takes no output. -/
def ofstream_write (stream : ofstream) (record : log_record) : ofstream :=
  if stream.is_open && !stream.failbit then
    { stream with written := stream.written ++ [record] }
  else stream

/-- The member `std::ofstream::close()` of the C++ library: the file is
closed and keeps what was written; closing a stream that has no file open
sets the fail bit. -/
def ofstream_close (stream : ofstream) : ofstream :=
  if stream.is_open then { stream with is_open := false }
  else { stream with failbit := true }

/-- What a `ptr_cond_direct_ins_t` of `detected_input_dep_cfis` points to, as
`stop_exploring` reads it: a conditional-branch object together with the
member `is_singular`, which the class has in version_1 next to the members
that cbranch.cpp assigns. -/
structure ptr_cond_direct_ins_t extends cond_direct_instruction where
  is_singular : Bool
deriving DecidableEq, Repr

/-- The global variables of path_explorer.cpp that `start_exploring` and
`stop_exploring` read or assign. `explored_fsa` and `abstracted_dfa` hold
handles of the two singletons; `start_time` and `stop_time` are `time_t`
values in seconds. -/
structure globals where
  max_trace_size : UINT32
  trace_size : UINT32
  current_exec_order : UINT32
  total_rollback_times : UINT32
  local_rollback_times : UINT32
  max_total_rollback_times : UINT32
  max_local_rollback_times : UINT32
  received_msg_order : UINT32
  executed_ins_number : Nat
  econed_ins_number : Nat
  logged_syscall_index : ADDRINT
  explored_fsa : Option Nat
  abstracted_dfa : Option Nat
  exploring_cfi : Option cond_direct_instruction
  traced_thread_is_fixed : Bool
  process_id : Nat
  process_id_str : String
  log_file : ofstream
  start_time : Int
  stop_time : Int
  detected_input_dep_cfis : List ptr_cond_direct_ins_t
deriving DecidableEq, Repr

/-- The globals as static initialisation leaves them at program start: zero,
null, empty, and a default-constructed stream. -/
def globals.static_init : globals :=
  { max_trace_size := 0, trace_size := 0, current_exec_order := 0,
    total_rollback_times := 0, local_rollback_times := 0,
    max_total_rollback_times := 0, max_local_rollback_times := 0,
    received_msg_order := 0, executed_ins_number := 0, econed_ins_number := 0,
    logged_syscall_index := 0, explored_fsa := none, abstracted_dfa := none,
    exploring_cfi := none, traced_thread_is_fixed := false,
    process_id := 0, process_id_str := "",
    log_file := { is_open := false, failbit := false, file_name := "", written := [] },
    start_time := 0, stop_time := 0, detected_input_dep_cfis := [] }

/-- What `start_exploring` takes from outside the program text: the compile
time switches, the values given to the four options, the process id, the
singletons, the constant `syscall_inexist`, and the file system. -/
structure start_env where
  gnu_linux : Bool
  ENABLE_FAST_ROLLBACK : Bool
  option_r : Option UINT32
  option_t : Option UINT32
  option_l : Option UINT32
  option_i : Option UINT32
  PIN_GetPid : Nat
  explorer_graph_instance : Nat
  execution_dfa_instance : Nat
  syscall_inexist : ADDRINT
  can_open : String → Bool

/-- How a call ends: it returns, or it leaves through `PIN_ExitProcess`. -/
inductive call_end where
  | returned
  | exited (status : Nat)
deriving DecidableEq, Repr

/-- The result of `start_exploring`: the globals, whether
`instrumentation::initialize()` has been called, and how the call ended. -/
structure start_result where
  state : globals
  instrumentation_set_up : Bool
  ending : call_end
deriving DecidableEq, Repr

/-- The function `start_exploring(data)`, with `DISABLE_FSA` not defined. -/
def start_exploring (env : start_env) (g : globals) : start_result :=
  let process_id := env.PIN_GetPid
  let process_id_str := toString process_id
  let g1 : globals :=
    { g with
      max_trace_size := (max_trace_length_knob env.option_l).Value
      trace_size := 0
      current_exec_order := 0
      total_rollback_times := 0
      local_rollback_times := 0
      max_total_rollback_times := (max_total_rollback_knob env.option_t).Value
      max_local_rollback_times := (max_local_rollback_knob env.option_r).Value
      received_msg_order := (interested_input_order_knob env.option_i).Value
      executed_ins_number := 0
      econed_ins_number := 0
      logged_syscall_index :=
        if env.gnu_linux then env.syscall_inexist else g.logged_syscall_index
      explored_fsa := some env.explorer_graph_instance
      abstracted_dfa := some env.execution_dfa_instance
      exploring_cfi := none
      traced_thread_is_fixed := false
      process_id := process_id
      process_id_str := process_id_str
      log_file := ofstream_open env.can_open g.log_file (process_id_str ++ "_path_explorer.log") }
  if g1.log_file.failbit then
    { state := g1, instrumentation_set_up := false, ending := call_end.exited 1 }
  else
    let f1 := ofstream_write g1.log_file
      (log_record.config_echo g1.max_total_rollback_times g1.max_local_rollback_times
        g1.max_trace_size)
    let f2 := ofstream_write f1
      (if !env.ENABLE_FAST_ROLLBACK then log_record.fast_rollback_disabled
       else log_record.fast_rollback_enabled)
    let f3 := ofstream_write f2 log_record.fsa_reconstruction_enabled
    let f4 := ofstream_write f3 log_record.separator_line
    { state := { g1 with log_file := f4 }
      instrumentation_set_up := true
      ending := call_end.returned }

/-- What `stop_exploring` does besides updating the globals and the log file,
in order: the lines it prints on `std::cerr` (the two with a number carry it)
and the calls it makes on the explorer graph, on the execution DFA and to
`calculate_exec_path_conditions`. -/
inductive stop_step where
  | cerr_seconds_elapsed_for_generating_dfa (seconds : Int)
  | cerr_extracting_cfi_tree
  | explored_fsa_extract_cfi_tree
  | cerr_saving_all_trees
  | explored_fsa_save_to_file (name : String)
  | calculate_exec_path_conditions
  | cerr_constructing_raw_dfa
  | abstracted_dfa_add_exec_paths
  | cerr_pre_processing_some_states
  | abstracted_dfa_pre_processing
  | cerr_saving_raw_dfa_to_file
  | abstracted_dfa_save_to_file (name : String)
  | cerr_abstracting_dfa
  | abstracted_dfa_co_approximate
  | cerr_saving_abstracted_dfa_to_file
  | cerr_seconds_elapsed_for_abstracting_dfa (seconds : Int)
deriving DecidableEq, Repr

/-- What `stop_exploring` takes from outside the program text: the values
returned by its two calls of `std::time(0)`. -/
structure stop_env where
  time_at_entry : Int
  time_at_return : Int
deriving DecidableEq, Repr

/-- The `std::for_each` of `stop_exploring` over `detected_input_dep_cfis`,
entered with the current values of the `UINT32` counters
`(resolved_cfi_num, singular_cfi_num)`; each increment is taken modulo
`2 ^ 32`. -/
def count_cfis_loop : List ptr_cond_direct_ins_t → UINT32 × UINT32 → UINT32 × UINT32
  | [], counters => counters
  | cfi :: rest, (resolved_cfi_num, singular_cfi_num) =>
    count_cfis_loop rest
      (if cfi.is_resolved then (resolved_cfi_num + 1) % 2 ^ 32 else resolved_cfi_num,
       if cfi.is_singular then (singular_cfi_num + 1) % 2 ^ 32 else singular_cfi_num)

/-- The result of `stop_exploring`: the globals and what else it did. -/
structure stop_result where
  state : globals
  steps : List stop_step
deriving DecidableEq, Repr

/-- The function `stop_exploring(code, data)`, with `DISABLE_FSA` not defined.
The calls on the explorer graph and on the execution DFA act on those objects
and on their output files; they are recorded as steps. Differences of
`time_t` values are taken as integers. -/
def stop_exploring (env : stop_env) (g : globals) : stop_result :=
  let g1 : globals := { g with stop_time := env.time_at_entry }
  let seconds_for_generating := g1.stop_time - g1.start_time
  let g2 : globals := { g1 with start_time := g1.stop_time }
  let counters := count_cfis_loop g2.detected_input_dep_cfis (0, 0)
  let f1 := ofstream_write g2.log_file
    (log_record.summary (g2.stop_time - g2.start_time) g2.total_rollback_times
      counters.1 counters.2 g2.detected_input_dep_cfis.length)
  let f2 := ofstream_close f1
  let g3 : globals := { g2 with log_file := f2 }
  let g4 : globals := { g3 with stop_time := env.time_at_return }
  { state := g4
    steps :=
      [stop_step.cerr_seconds_elapsed_for_generating_dfa seconds_for_generating,
       stop_step.cerr_extracting_cfi_tree,
       stop_step.explored_fsa_extract_cfi_tree,
       stop_step.cerr_saving_all_trees,
       stop_step.explored_fsa_save_to_file
         (g.process_id_str ++ "_path_explorer_explored_fsa.dot"),
       stop_step.calculate_exec_path_conditions,
       stop_step.cerr_constructing_raw_dfa,
       stop_step.abstracted_dfa_add_exec_paths,
       stop_step.cerr_pre_processing_some_states,
       stop_step.abstracted_dfa_pre_processing,
       stop_step.cerr_saving_raw_dfa_to_file,
       stop_step.abstracted_dfa_save_to_file ("raw_" ++ g.process_id_str ++ ".dot"),
       stop_step.cerr_abstracting_dfa,
       stop_step.abstracted_dfa_co_approximate,
       stop_step.cerr_saving_abstracted_dfa_to_file,
       stop_step.abstracted_dfa_save_to_file ("abstracted_" ++ g.process_id_str ++ ".dot"),
       stop_step.cerr_seconds_elapsed_for_abstracting_dfa (g4.stop_time - g4.start_time)] }

/-! ## Run-time model of the rollbacking phase -/

/-- The state the rollbacking analysis works on: the live memory of the traced
process and the global `saved_checkpoints` of path_explorer.cpp, the
checkpoints taken and not yet consumed. -/
structure exec_state where
  mem : Memory
  saved_checkpoints : List checkpoint

/-- Modelled from the spec: the body of the analysis routine
`rollbacking::mem_write_instruction(ins_addr, mem_addr, mem_size)`, which is
declared in rollbacking_phase.h and is not among the sources. Following
"`log_before_write(addr, len)`: for each byte in `[addr, addr+len)` not yet
present in the active checkpoint's change log, record its pre-write value"
and "a memory-change log populated lazily, first-write-wins, for every address
subsequently overwritten before the checkpoint is consumed", it has every
checkpoint of `saved_checkpoints` log the range against the memory of the
moment. The size arrives as a `UINT32` and is converted to the `UINT8` length
parameter of `checkpoint::log_before_execution`. -/
def rollbacking_mem_write_instruction (bits : Nat) (_ins_addr mem_addr : ADDRINT)
    (mem_size : UINT32) (s : exec_state) : exec_state :=
  { s with
    saved_checkpoints :=
      s.saved_checkpoints.map
        (fun cp => log_before_execution bits cp s.mem mem_addr (mem_size % 256)) }

theorem addr_map_find_assign {β : Type} (m : addr_map β) (k : Nat) (v : β) (a : Nat) :
    addr_map.find (addr_map.assign m k v) a = if a = k then some v else addr_map.find m a := rfl

/-- What the change-log loop computes: a key already present keeps its value,
and an absent key receives the current memory byte exactly when the loop
visits it. -/
theorem log_before_execution_loop_find (mem : Memory) (upper_bound_address : Nat) :
    ∀ (n : Nat) (mem_addr : Nat) (log : addr_map UINT8) (a : Nat),
      upper_bound_address - mem_addr = n →
      addr_map.find (log_before_execution_loop mem upper_bound_address mem_addr log) a =
        match addr_map.find log a with
        | some v => some v
        | none => if mem_addr ≤ a ∧ a < upper_bound_address then some (mem a) else none := by
  intro n
  induction n with
  | zero =>
    intro mem_addr log a hn
    have hge : ¬ mem_addr < upper_bound_address := by omega
    rw [log_before_execution_loop]
    simp only [hge, dite_false]
    cases hfa : addr_map.find log a with
    | some v => rfl
    | none =>
      have : ¬ (mem_addr ≤ a ∧ a < upper_bound_address) := by omega
      simp [this]
  | succ n ih =>
    intro mem_addr log a hn
    have hlt : mem_addr < upper_bound_address := by omega
    have hiff : (mem_addr + 1 ≤ a ∧ a < upper_bound_address) ↔
        (mem_addr < a ∧ a < upper_bound_address) := by omega
    rw [log_before_execution_loop]
    simp only [hlt, dite_true]
    rw [ih (mem_addr + 1) _ a (by omega)]
    cases hfm : addr_map.find log mem_addr with
    | some w =>
      simp only []
      cases hfa : addr_map.find log a with
      | some v => rfl
      | none =>
        have hne : a ≠ mem_addr := by
          intro h; rw [h] at hfa; rw [hfa] at hfm; cases hfm
        have hiff2 : (mem_addr < a ∧ a < upper_bound_address) ↔
            (mem_addr ≤ a ∧ a < upper_bound_address) := by omega
        simp only [hiff, hiff2]
    | none =>
      simp only [addr_map_find_assign]
      by_cases hEq : a = mem_addr
      · subst hEq
        simp [hfm, hlt]
      · simp only [hEq, if_false]
        cases hfa : addr_map.find log a with
        | some v => rfl
        | none =>
          have hiff2 : (mem_addr < a ∧ a < upper_bound_address) ↔
              (mem_addr ≤ a ∧ a < upper_bound_address) := by omega
          simp only [hiff, hiff2]

/-- The change log after `log_before_execution`, key by key. -/
theorem log_before_execution_find (bits : Nat) (cp : checkpoint) (mem : Memory)
    (addr len a : Nat) :
    addr_map.find (log_before_execution bits cp mem addr len).memory_change_log a =
      match addr_map.find cp.memory_change_log a with
      | some v => some v
      | none => if addr ≤ a ∧ a < (addr + len) % 2 ^ bits then some (mem a) else none := by
  unfold log_before_execution
  exact log_before_execution_loop_find mem _ _ addr cp.memory_change_log a rfl

/-- A recorded entry survives one further call. -/
theorem log_before_execution_keeps (bits : Nat) (mem : Memory) (addr len a : Nat) (v : UINT8)
    (cp : checkpoint) (h : addr_map.find cp.memory_change_log a = some v) :
    addr_map.find (log_before_execution bits cp mem addr len).memory_change_log a = some v := by
  rw [log_before_execution_find, h]

/-- A recorded entry survives any sequence of further calls, each made with
the memory, start address and length of its own moment. -/
theorem log_before_execution_foldl_keeps (bits : Nat) (a : Nat) (v : UINT8) :
    ∀ (calls : List (Memory × Nat × Nat)) (cp : checkpoint),
      addr_map.find cp.memory_change_log a = some v →
      addr_map.find
        (calls.foldl (fun c call => log_before_execution bits c call.1 call.2.1 call.2.2)
          cp).memory_change_log a = some v := by
  intro calls
  induction calls with
  | nil => intro cp h; exact h
  | cons call rest ih =>
    intro cp h
    simp only [List.foldl_cons]
    exact ih _ (log_before_execution_keeps bits call.1 call.2.1 call.2.2 a v cp h)

/-- The snapshot loop of the constructor, key by key. -/
theorem checkpoint_state_loop_find (mem : Memory) (a : Nat) :
    ∀ (operands : List insoperand) (m : addr_map UINT8),
      addr_map.find (checkpoint_state_loop mem operands m) a =
        if (⟨insoperand_value.addr a⟩ : insoperand) ∈ operands then some (mem a)
        else addr_map.find m a := by
  intro operands
  induction operands with
  | nil => intro m; simp [checkpoint_state_loop]
  | cons operand rest ih =>
    intro m
    obtain ⟨value⟩ := operand
    cases value with
    | addr b =>
      simp only [checkpoint_state_loop, ih, addr_map_find_assign, List.mem_cons,
        insoperand.mk.injEq, insoperand_value.addr.injEq]
      by_cases hab : a = b
      · subst hab; simp
      · simp only [hab, false_or, if_false]
    | reg r =>
      simp only [checkpoint_state_loop, ih, List.mem_cons, insoperand.mk.injEq]
      simp

/-- The perturbation loop leaves every address outside its list untouched. -/
theorem modify_input_loop_other (random_uint8 : Nat → UINT8) (a : Nat) :
    ∀ (addrs : List ADDRINT) (n : Nat) (mem : Memory),
      a ∉ addrs → modify_input_loop random_uint8 addrs n mem a = mem a := by
  intro addrs
  induction addrs with
  | nil => intro n mem _; rfl
  | cons x rest ih =>
    intro n mem hnot
    have hx : a ≠ x := fun h => hnot (by simp [h])
    have hrest : a ∉ rest := fun h => hnot (by simp [h])
    simp only [modify_input_loop]
    rw [ih _ _ hrest]
    simp [Memory.write, hx]

/-- Reading `m[k]` never changes what a later read of any key returns. -/
theorem addr_map_index_getD (m : addr_map UINT8) (k a : Nat) :
    (addr_map.find (addr_map.index m k).2 a).getD 0 = (addr_map.find m a).getD 0 := by
  unfold addr_map.index
  cases hk : m k with
  | some v => rfl
  | none =>
    simp only [addr_map_find_assign]
    by_cases hak : a = k
    · subst hak; simp [addr_map.find, hk]
    · simp [hak]

theorem addr_map_index_fst (m : addr_map UINT8) (k : Nat) :
    (addr_map.index m k).1 = (addr_map.find m k).getD 0 := by
  unfold addr_map.index addr_map.find
  cases hk : m k with
  | some v => rfl
  | none => rfl

/-- The restoring loop, address by address: listed addresses receive the byte
of `original_msgstate_at_address` (0 for an absent key), the others keep
theirs. -/
theorem restore_input_loop_read (a : Nat) :
    ∀ (addrs : List ADDRINT) (orig : addr_map UINT8) (mem : Memory),
      (restore_input_loop addrs (orig, mem)).2 a =
        if a ∈ addrs then (addr_map.find orig a).getD 0 else mem a := by
  intro addrs
  induction addrs with
  | nil => intro orig mem; simp [restore_input_loop]
  | cons x rest ih =>
    intro orig mem
    simp only [restore_input_loop, ih, addr_map_index_getD, addr_map_index_fst, List.mem_cons]
    by_cases hr : a ∈ rest
    · simp [hr]
    · by_cases hx : a = x
      · subst hx; simp [hr, Memory.write]
      · simp [hr, hx, Memory.write]

/-! ## Claims about the checkpoint engine -/

/-- C1. Once a call of `log_before_execution` has recorded an entry for an
address `a` (absent before the call, present after it), the entry is the byte
memory held at `a` at that call, and it is still that byte after any sequence
of later calls, whatever memory holds by then and whatever ranges they cover:
repeated logging never overwrites a recorded original value. -/
theorem C1_change_log_first_write_wins (bits : Nat) (cp : checkpoint) (mem : Memory)
    (addr len a : Nat)
    (habsent : addr_map.find cp.memory_change_log a = none)
    (hrecorded :
      addr_map.find (log_before_execution bits cp mem addr len).memory_change_log a ≠ none) :
    addr_map.find (log_before_execution bits cp mem addr len).memory_change_log a
        = some (mem a) ∧
    ∀ later : List (Memory × Nat × Nat),
      addr_map.find
        (later.foldl (fun c call => log_before_execution bits c call.1 call.2.1 call.2.2)
          (log_before_execution bits cp mem addr len)).memory_change_log a
        = some (mem a) := by
  have hfirst :
      addr_map.find (log_before_execution bits cp mem addr len).memory_change_log a
        = some (mem a) := by
    have hfind := log_before_execution_find bits cp mem addr len a
    rw [habsent] at hfind
    by_cases hin : addr ≤ a ∧ a < (addr + len) % 2 ^ bits
    · simpa [hin] using hfind
    · exfalso
      apply hrecorded
      simpa [hin] using hfind
  exact ⟨hfirst, fun later => log_before_execution_foldl_keeps bits a (mem a) later _ hfirst⟩

/-- C1 at a concrete input: a fresh checkpoint, memory holding 1 everywhere,
a first call on [10, 14); address 11 is then logged again on [10, 14) and on
[11, 12) after memory has been overwritten with 2 and with 3. -/
theorem C1_change_log_first_write_wins_witness :
    addr_map.find
      (([((fun _ => 2 : Memory), 10, 4), ((fun _ => 3 : Memory), 11, 1)]
          : List (Memory × Nat × Nat)).foldl
        (fun c call => log_before_execution 64 c call.1 call.2.1 call.2.2)
        (log_before_execution 64 (checkpoint.new [] (fun _ => []) 0 (fun _ => 1))
          (fun _ => 1) 10 4)).memory_change_log 11
      = some 1 :=
  (C1_change_log_first_write_wins 64 (checkpoint.new [] (fun _ => []) 0 (fun _ => 1))
    (fun _ => 1) 10 4 11 rfl
    (by rw [log_before_execution_find]; simp [checkpoint.new, addr_map.find, addr_map.empty])).2
    [((fun _ => 2 : Memory), 10, 4), ((fun _ => 3 : Memory), 11, 1)]

/-- C2, as the code has it. After `modify_input` followed by `restore_input`,
every address of `memory_addresses_to_modify` holds the byte that
`original_msgstate_at_address` records for it (0 when it records none), and
every other address holds what it held before the perturbation. Memory is
therefore identical to the memory before the perturbation whenever
`original_msgstate_at_address` agreed with that memory on the listed
addresses. -/
theorem C2_restore_input_reinstates_original_msgstate (cp : checkpoint)
    (original_msgstate_at_address : addr_map UINT8) (random_uint8 : Nat → UINT8)
    (mem : Memory) :
    (∀ a, a ∈ cp.memory_addresses_to_modify →
      (restore_input cp original_msgstate_at_address (modify_input cp random_uint8 mem)).2 a
        = (addr_map.find original_msgstate_at_address a).getD 0) ∧
    (∀ a, a ∉ cp.memory_addresses_to_modify →
      (restore_input cp original_msgstate_at_address (modify_input cp random_uint8 mem)).2 a
        = mem a) ∧
    ((∀ a, a ∈ cp.memory_addresses_to_modify →
        addr_map.find original_msgstate_at_address a = some (mem a)) →
      ∀ a,
        (restore_input cp original_msgstate_at_address (modify_input cp random_uint8 mem)).2 a
          = mem a) := by
  have hread : ∀ a,
      (restore_input cp original_msgstate_at_address (modify_input cp random_uint8 mem)).2 a
        = if a ∈ cp.memory_addresses_to_modify then
            (addr_map.find original_msgstate_at_address a).getD 0
          else mem a := by
    intro a
    unfold restore_input
    rw [restore_input_loop_read]
    by_cases hin : a ∈ cp.memory_addresses_to_modify
    · simp [hin]
    · simp only [hin, if_false]
      exact modify_input_loop_other random_uint8 a _ 0 mem hin
  refine ⟨?_, ?_, ?_⟩
  · intro a hin
    rw [hread a]; simp [hin]
  · intro a hin
    rw [hread a]; simp [hin]
  · intro hagree a
    rw [hread a]
    by_cases hin : a ∈ cp.memory_addresses_to_modify
    · simp [hin, hagree a hin]
    · simp [hin]

/-- C2 as stated fails: with address 0 registered for perturbation, memory
holding 5 there and `original_msgstate_at_address` recording 7, the byte at
address 0 after `modify_input` and `restore_input` is 7, not the 5 that memory
held before the perturbation. -/
theorem C2_restore_input_counterexample :
    (restore_input
        { cpu_context := [], memory_state_at := addr_map.empty,
          memory_change_log := addr_map.empty, memory_addresses_to_modify := [0] }
        (addr_map.assign addr_map.empty 0 7)
        (modify_input
          { cpu_context := [], memory_state_at := addr_map.empty,
            memory_change_log := addr_map.empty, memory_addresses_to_modify := [0] }
          (fun _ => 200) (fun _ => 5))).2 0 = 7 ∧
    (fun _ => 5 : Memory) 0 = 5 ∧ (7 : Nat) ≠ 5 := by
  refine ⟨?_, rfl, by decide⟩
  simp [restore_input, restore_input_loop, modify_input, modify_input_loop, addr_map.index,
    addr_map.assign, Memory.write]

/-- C2 in the agreeing case, at a concrete input: addresses 0 and 1 are
registered, memory holds 5 everywhere and `original_msgstate_at_address`
records 5 for both; after perturbation and restoration address 1 holds 5. -/
theorem C2_restore_input_agreeing_witness :
    (restore_input
        { cpu_context := [], memory_state_at := addr_map.empty,
          memory_change_log := addr_map.empty, memory_addresses_to_modify := [0, 1] }
        (addr_map.assign (addr_map.assign addr_map.empty 0 5) 1 5)
        (modify_input
          { cpu_context := [], memory_state_at := addr_map.empty,
            memory_change_log := addr_map.empty, memory_addresses_to_modify := [0, 1] }
          (fun n => 200 + n) (fun _ => 5))).2 1 = 5 :=
  (C2_restore_input_reinstates_original_msgstate
    { cpu_context := [], memory_state_at := addr_map.empty,
      memory_change_log := addr_map.empty, memory_addresses_to_modify := [0, 1] }
    (addr_map.assign (addr_map.assign addr_map.empty 0 5) 1 5)
    (fun n => 200 + n) (fun _ => 5)).2.2
    (by
      intro a ha
      simp only [List.mem_cons, List.mem_singleton, List.not_mem_nil, or_false] at ha
      rcases ha with h | h <;> subst h <;> rfl)
    1

/-- C3, as the code has it. When the end of the range does not wrap around the
address width (`addr + len < 2 ^ bits`), after `log_before_execution(addr, len)`
the change log has a key exactly at the addresses that had one before or lie
in [addr, addr+len), and each entry added by the call is the byte memory holds
at that address at the time of the call. -/
theorem C3_change_log_covers_written_range (bits : Nat) (cp : checkpoint) (mem : Memory)
    (addr len : Nat) (hno_wrap : addr + len < 2 ^ bits) :
    (∀ a,
      addr_map.find (log_before_execution bits cp mem addr len).memory_change_log a ≠ none ↔
        (addr_map.find cp.memory_change_log a ≠ none ∨ (addr ≤ a ∧ a < addr + len))) ∧
    (∀ a, addr_map.find cp.memory_change_log a = none →
      addr_map.find (log_before_execution bits cp mem addr len).memory_change_log a ≠ none →
      addr_map.find (log_before_execution bits cp mem addr len).memory_change_log a
        = some (mem a)) := by
  have hmod : (addr + len) % 2 ^ bits = addr + len := Nat.mod_eq_of_lt hno_wrap
  constructor
  · intro a
    rw [log_before_execution_find, hmod]
    cases hold : addr_map.find cp.memory_change_log a with
    | some v => simp
    | none =>
      by_cases hin : addr ≤ a ∧ a < addr + len
      · simp [hin]
      · simp [hin]
  · intro a hold
    rw [log_before_execution_find, hold, hmod]
    by_cases hin : addr ≤ a ∧ a < addr + len
    · simp [hin]
    · simp [hin]

/-- C3 at a concrete input: 64-bit addresses, a fresh checkpoint, the range
[10, 14). -/
theorem C3_change_log_covers_written_range_witness :
    (10 + 4 < 2 ^ 64) ∧
    addr_map.find
      (log_before_execution 64 (checkpoint.new [] (fun _ => []) 0 (fun _ => 1))
        (fun a => a % 256) 10 4).memory_change_log 13 ≠ none :=
  ⟨by norm_num,
   ((C3_change_log_covers_written_range 64 (checkpoint.new [] (fun _ => []) 0 (fun _ => 1))
      (fun a => a % 256) 10 4 (by norm_num)).1 13).2 (Or.inr ⟨by decide, by decide⟩)⟩

/-- C3 as stated fails when the range reaches the top of the address space:
with 64-bit addresses, `addr = 2^64 - 1` and `len = 1`, the upper bound
`addr + len` wraps to 0, the loop body never runs, and the address `addr`, which
lies in [addr, addr+len), gets no change-log entry. -/
theorem C3_change_log_wrap_counterexample :
    (18446744073709551615 ≤ 18446744073709551615 ∧
      18446744073709551615 < 18446744073709551615 + 1) ∧
    18446744073709551615 < 2 ^ 64 ∧
    addr_map.find
      (log_before_execution 64 (checkpoint.new [] (fun _ => []) 0 (fun _ => 7))
        (fun _ => 7) 18446744073709551615 1).memory_change_log 18446744073709551615
      = none := by
  refine ⟨⟨le_refl _, Nat.lt_succ_self _⟩, by norm_num, ?_⟩
  rw [log_before_execution_find]
  simp [checkpoint.new, addr_map.find, addr_map.empty]

/-- C4. A checkpoint constructed over a memory state and the operands
registered for the current execution order has a memory-state snapshot with a
key exactly at the addresses of the operands whose value is a memory address,
each mapped to the byte memory holds at construction time; register operands
contribute no key. -/
theorem C4_checkpoint_snapshots_memory_operands (current_context : CONTEXT)
    (outerface_at_execorder : Nat → List insoperand) (current_execorder : Nat)
    (mem : Memory) (a : Nat) :
    addr_map.find
      (checkpoint.new current_context outerface_at_execorder current_execorder
        mem).memory_state_at a =
      if (⟨insoperand_value.addr a⟩ : insoperand) ∈ outerface_at_execorder current_execorder
      then some (mem a) else none := by
  unfold checkpoint.new
  simp only [checkpoint_state_loop_find]
  rfl

/-! ## Claims about the instruction catalog and the analysis calls -/

/-- The entry `ins_instrumenter` leaves at the address of the instruction it
has processed outside the capturing phase. -/
theorem ins_instrumenter_find_own {INS : Type} (ENABLE_FAST_ROLLBACK : Bool)
    (new_instruction : INS → instruction) (current_running_phase : running_phase)
    (ins_at_addr : addr_map ptr_instruction_t) (ins : INS)
    (hphase : current_running_phase ≠ running_phase.capturing_phase) :
    addr_map.find
      (ins_instrumenter ENABLE_FAST_ROLLBACK new_instruction current_running_phase
        ins_at_addr ins).1 (new_instruction ins).address =
      some (if (new_instruction ins).is_cond_direct_cf then
              ptr_instruction_t.to_cond_direct_instruction
                (cbranch.of_instruction (new_instruction ins))
            else ptr_instruction_t.to_instruction (new_instruction ins)) := by
  cases current_running_phase <;>
    first
    | exact absurd rfl hphase
    | (cases hcf : (new_instruction ins).is_cond_direct_cf <;>
        simp [ins_instrumenter, hcf, addr_map.find, addr_map.assign])

/-- C5, as the code has it. Outside the capturing phase `ins_instrumenter`
stores at the instruction's address an entry built anew from the delivered
instruction, whether or not the address was already in the catalog, so an
existing entry is replaced and its resolution attributes start again; in
the capturing phase the catalog is left as it is. In every phase the entries
at all other addresses are kept unchanged and no address leaves the catalog. -/
theorem C5_catalog_entry_rebuilt_on_every_sighting {INS : Type} (ENABLE_FAST_ROLLBACK : Bool)
    (new_instruction : INS → instruction) (current_running_phase : running_phase)
    (ins_at_addr : addr_map ptr_instruction_t) (ins : INS) :
    (current_running_phase ≠ running_phase.capturing_phase →
      addr_map.find
        (ins_instrumenter ENABLE_FAST_ROLLBACK new_instruction current_running_phase
          ins_at_addr ins).1 (new_instruction ins).address =
        some (if (new_instruction ins).is_cond_direct_cf then
                ptr_instruction_t.to_cond_direct_instruction
                  (cbranch.of_instruction (new_instruction ins))
              else ptr_instruction_t.to_instruction (new_instruction ins))) ∧
    (current_running_phase = running_phase.capturing_phase →
      ∀ a, addr_map.find
        (ins_instrumenter ENABLE_FAST_ROLLBACK new_instruction current_running_phase
          ins_at_addr ins).1 a = addr_map.find ins_at_addr a) ∧
    (∀ a, a ≠ (new_instruction ins).address →
      addr_map.find
        (ins_instrumenter ENABLE_FAST_ROLLBACK new_instruction current_running_phase
          ins_at_addr ins).1 a = addr_map.find ins_at_addr a) ∧
    (∀ a, addr_map.find ins_at_addr a ≠ none →
      addr_map.find
        (ins_instrumenter ENABLE_FAST_ROLLBACK new_instruction current_running_phase
          ins_at_addr ins).1 a ≠ none) := by
  refine ⟨?_, ?_, ?_, ?_⟩
  · exact ins_instrumenter_find_own ENABLE_FAST_ROLLBACK new_instruction
      current_running_phase ins_at_addr ins
  · intro hphase a
    subst hphase
    simp [ins_instrumenter]
  · intro a ha
    cases current_running_phase <;>
      cases hcf : (new_instruction ins).is_cond_direct_cf <;>
        simp [ins_instrumenter, hcf, addr_map.find, addr_map.assign, ha]
  · intro a ha
    cases current_running_phase <;>
      cases hcf : (new_instruction ins).is_cond_direct_cf <;>
        by_cases hEq : a = (new_instruction ins).address <;>
          simp [ins_instrumenter, hcf, addr_map.find, addr_map.assign, hEq] <;>
          simpa [addr_map.find, hEq] using ha

/-- C5 as stated fails: the catalog holds at address 4096 a conditional branch
already marked resolved; the same instruction is delivered once more in the
tainting phase, and the entry at 4096 is afterwards a fresh one with
`is_resolved = false`, not the existing entry. -/
theorem C5_catalog_entry_counterexample :
    addr_map.find
      (addr_map.assign addr_map.empty 4096
        (ptr_instruction_t.to_cond_direct_instruction
          { address := 4096, is_syscall := false, is_mem_read := false,
            has_mem_read2 := false, is_mem_write := false, is_cond_direct_cf := true,
            is_resolved := true, is_bypassed := false })) 4096
      = some (ptr_instruction_t.to_cond_direct_instruction
          { address := 4096, is_syscall := false, is_mem_read := false,
            has_mem_read2 := false, is_mem_write := false, is_cond_direct_cf := true,
            is_resolved := true, is_bypassed := false }) ∧
    addr_map.find
      (ins_instrumenter false (fun i : instruction => i) running_phase.tainting_state
        (addr_map.assign addr_map.empty 4096
          (ptr_instruction_t.to_cond_direct_instruction
            { address := 4096, is_syscall := false, is_mem_read := false,
              has_mem_read2 := false, is_mem_write := false, is_cond_direct_cf := true,
              is_resolved := true, is_bypassed := false }))
        { address := 4096, is_syscall := false, is_mem_read := false,
          has_mem_read2 := false, is_mem_write := false, is_cond_direct_cf := true }).1 4096
      = some (ptr_instruction_t.to_cond_direct_instruction
          { address := 4096, is_syscall := false, is_mem_read := false,
            has_mem_read2 := false, is_mem_write := false, is_cond_direct_cf := true,
            is_resolved := false, is_bypassed := false }) ∧
    (true : Bool) ≠ false := by
  refine ⟨rfl, rfl, by decide⟩

/-- C6. Outside the capturing phase, the catalog entry that `ins_instrumenter`
stores at the address of the processed instruction is of the
conditional-branch class if and only if the instruction is a conditional
direct branch; an entry of the base class is the decoded instruction itself,
and a conditional-branch entry keeps the attributes of the base instruction
and has `is_resolved = false` and `is_bypassed = false`. -/
theorem C6_catalog_entry_class {INS : Type} (ENABLE_FAST_ROLLBACK : Bool)
    (new_instruction : INS → instruction) (current_running_phase : running_phase)
    (ins_at_addr : addr_map ptr_instruction_t) (ins : INS)
    (hphase : current_running_phase ≠ running_phase.capturing_phase) :
    ((∃ c, addr_map.find
        (ins_instrumenter ENABLE_FAST_ROLLBACK new_instruction current_running_phase
          ins_at_addr ins).1 (new_instruction ins).address
        = some (ptr_instruction_t.to_cond_direct_instruction c))
      ↔ (new_instruction ins).is_cond_direct_cf = true) ∧
    (∀ c, addr_map.find
        (ins_instrumenter ENABLE_FAST_ROLLBACK new_instruction current_running_phase
          ins_at_addr ins).1 (new_instruction ins).address
        = some (ptr_instruction_t.to_cond_direct_instruction c) →
      c.toinstruction = new_instruction ins ∧ c.is_resolved = false ∧ c.is_bypassed = false) ∧
    (∀ i, addr_map.find
        (ins_instrumenter ENABLE_FAST_ROLLBACK new_instruction current_running_phase
          ins_at_addr ins).1 (new_instruction ins).address
        = some (ptr_instruction_t.to_instruction i) →
      i = new_instruction ins) := by
  have hentry :=
    ins_instrumenter_find_own ENABLE_FAST_ROLLBACK new_instruction
      current_running_phase ins_at_addr ins hphase
  rw [hentry]
  cases hcf : (new_instruction ins).is_cond_direct_cf
  · refine ⟨?_, ?_, ?_⟩
    · simp
    · intro c hc; simp at hc
    · intro i hi
      simp at hi
      exact hi.symm
  · refine ⟨?_, ?_, ?_⟩
    · simp
    · intro c hc
      simp at hc
      subst hc
      exact ⟨rfl, rfl, rfl⟩
    · intro i hi; simp at hi

/-- C6 at a concrete input: a conditional direct branch at address 4096 is
processed in the tainting phase with an empty catalog. -/
theorem C6_catalog_entry_class_witness :
    running_phase.tainting_state ≠ running_phase.capturing_phase ∧
    ∀ c, addr_map.find
        (ins_instrumenter false (fun i : instruction => i) running_phase.tainting_state
          addr_map.empty
          { address := 4096, is_syscall := false, is_mem_read := true,
            has_mem_read2 := false, is_mem_write := false, is_cond_direct_cf := true }).1 4096
        = some (ptr_instruction_t.to_cond_direct_instruction c) →
      c.toinstruction =
          { address := 4096, is_syscall := false, is_mem_read := true,
            has_mem_read2 := false, is_mem_write := false, is_cond_direct_cf := true } ∧
        c.is_resolved = false ∧ c.is_bypassed = false :=
  ⟨by decide,
   (C6_catalog_entry_class false (fun i : instruction => i) running_phase.tainting_state
      addr_map.empty
      { address := 4096, is_syscall := false, is_mem_read := true,
        has_mem_read2 := false, is_mem_write := false, is_cond_direct_cf := true }
      (by decide)).2.1⟩

/-- The calls of `exec_tainting_phase` that register the memory-read taint
rule `tainting::mem_read_instruction`. -/
theorem exec_tainting_phase_mem_read_calls (examined_ins : instruction) :
    (exec_tainting_phase examined_ins).filter
        (fun call => decide (call.funptr = AFUNPTR.tainting_mem_read_instruction)) =
      if examined_ins.is_syscall = false ∧ examined_ins.is_mem_read = true then
        ⟨IPOINT.IPOINT_BEFORE, AFUNPTR.tainting_mem_read_instruction,
          [IARG_TYPE.IARG_INST_PTR, IARG_TYPE.IARG_MEMORYREAD_EA,
           IARG_TYPE.IARG_MEMORYREAD_SIZE, IARG_TYPE.IARG_CONTEXT]⟩ ::
        (if examined_ins.has_mem_read2 = true then
          [⟨IPOINT.IPOINT_BEFORE, AFUNPTR.tainting_mem_read_instruction,
            [IARG_TYPE.IARG_INST_PTR, IARG_TYPE.IARG_MEMORYREAD2_EA,
             IARG_TYPE.IARG_MEMORYREAD_SIZE, IARG_TYPE.IARG_CONTEXT]⟩]
         else [])
      else [] := by
  obtain ⟨address, is_syscall, is_mem_read, has_mem_read2, is_mem_write, is_cond⟩ :=
    examined_ins
  cases is_syscall <;> cases is_mem_read <;> cases has_mem_read2 <;> cases is_mem_write <;>
    simp [exec_tainting_phase, List.filter]

/-- C7, as the code has it. For an instruction that is not a system call and
reads memory, `exec_tainting_phase` registers the memory-read taint rule
exactly twice when the instruction has a secondary memory-read operand, first
for the primary and then for the secondary read address, and exactly once,
for the primary read address, when it has none. For a system call, and for an
instruction not flagged as reading memory, it does not register that rule. -/
theorem C7_mem_read_rule_registrations (examined_ins : instruction) :
    (examined_ins.is_syscall = false → examined_ins.is_mem_read = true →
      examined_ins.has_mem_read2 = true →
      (exec_tainting_phase examined_ins).filter
          (fun call => decide (call.funptr = AFUNPTR.tainting_mem_read_instruction)) =
        [⟨IPOINT.IPOINT_BEFORE, AFUNPTR.tainting_mem_read_instruction,
            [IARG_TYPE.IARG_INST_PTR, IARG_TYPE.IARG_MEMORYREAD_EA,
             IARG_TYPE.IARG_MEMORYREAD_SIZE, IARG_TYPE.IARG_CONTEXT]⟩,
         ⟨IPOINT.IPOINT_BEFORE, AFUNPTR.tainting_mem_read_instruction,
            [IARG_TYPE.IARG_INST_PTR, IARG_TYPE.IARG_MEMORYREAD2_EA,
             IARG_TYPE.IARG_MEMORYREAD_SIZE, IARG_TYPE.IARG_CONTEXT]⟩]) ∧
    (examined_ins.is_syscall = false → examined_ins.is_mem_read = true →
      examined_ins.has_mem_read2 = false →
      (exec_tainting_phase examined_ins).filter
          (fun call => decide (call.funptr = AFUNPTR.tainting_mem_read_instruction)) =
        [⟨IPOINT.IPOINT_BEFORE, AFUNPTR.tainting_mem_read_instruction,
            [IARG_TYPE.IARG_INST_PTR, IARG_TYPE.IARG_MEMORYREAD_EA,
             IARG_TYPE.IARG_MEMORYREAD_SIZE, IARG_TYPE.IARG_CONTEXT]⟩]) ∧
    (examined_ins.is_syscall = true ∨ examined_ins.is_mem_read = false →
      (exec_tainting_phase examined_ins).filter
          (fun call => decide (call.funptr = AFUNPTR.tainting_mem_read_instruction)) = []) := by
  rw [exec_tainting_phase_mem_read_calls]
  refine ⟨?_, ?_, ?_⟩
  · intro h1 h2 h3; simp [h1, h2, h3]
  · intro h1 h2 h3; simp [h1, h2, h3]
  · intro h
    rcases h with h | h
    · simp [h]
    · simp [h]

/-- C7 at a concrete input: an instruction that is not a system call and
reads memory through two operands gets the memory-read rule twice. -/
theorem C7_mem_read_rule_registrations_witness :
    ((exec_tainting_phase
        { address := 4096, is_syscall := false, is_mem_read := true, has_mem_read2 := true,
          is_mem_write := false, is_cond_direct_cf := false }).filter
        (fun call => decide (call.funptr = AFUNPTR.tainting_mem_read_instruction))).length = 2 :=
  congrArg List.length
    ((C7_mem_read_rule_registrations
      { address := 4096, is_syscall := false, is_mem_read := true, has_mem_read2 := true,
        is_mem_write := false, is_cond_direct_cf := false }).1 rfl rfl rfl)

/-- C7 as stated fails on a system-call instruction: one flagged as reading
memory with a secondary read operand gets the memory-read rule registered zero
times, not twice, and one flagged as reading memory without a secondary read
operand gets it zero times, not once. -/
theorem C7_mem_read_rule_counterexample :
    ((exec_tainting_phase
        { address := 4096, is_syscall := true, is_mem_read := true, has_mem_read2 := true,
          is_mem_write := false, is_cond_direct_cf := false }).filter
        (fun call => decide (call.funptr = AFUNPTR.tainting_mem_read_instruction))).length = 0 ∧
    ((exec_tainting_phase
        { address := 4096, is_syscall := true, is_mem_read := true, has_mem_read2 := false,
          is_mem_write := false, is_cond_direct_cf := false }).filter
        (fun call => decide (call.funptr = AFUNPTR.tainting_mem_read_instruction))).length = 0 := by
  constructor <;> rfl

/-! ## Claims about run start-up -/

/-- C8. `start_exploring` ends through `PIN_ExitProcess(1)` if and only if
the run log file of the process cannot be opened (the stream already has a
file open, or the file system refuses the file). When it does, nothing is
written to the log and `instrumentation::initialize()` is not called; when the
file is opened, the call returns, the log holds exactly the configuration
echo, and `instrumentation::initialize()` has been called. -/
theorem C8_start_exploring_aborts_iff_log_open_fails (env : start_env) (g : globals) :
    ((start_exploring env g).ending = call_end.exited 1 ↔
      (g.log_file.is_open = true ∨
        env.can_open (toString env.PIN_GetPid ++ "_path_explorer.log") = false)) ∧
    ((start_exploring env g).ending = call_end.exited 1 →
      (start_exploring env g).instrumentation_set_up = false ∧
      (start_exploring env g).state.log_file.written = g.log_file.written) ∧
    (¬ (g.log_file.is_open = true ∨
        env.can_open (toString env.PIN_GetPid ++ "_path_explorer.log") = false) →
      (start_exploring env g).ending = call_end.returned ∧
      (start_exploring env g).instrumentation_set_up = true ∧
      (start_exploring env g).state.log_file.written =
        [log_record.config_echo (start_exploring env g).state.max_total_rollback_times
            (start_exploring env g).state.max_local_rollback_times
            (start_exploring env g).state.max_trace_size,
         (if env.ENABLE_FAST_ROLLBACK then log_record.fast_rollback_enabled
          else log_record.fast_rollback_disabled),
         log_record.fsa_reconstruction_enabled,
         log_record.separator_line]) := by
  cases hopen : g.log_file.is_open
  · cases hcan : env.can_open (toString env.PIN_GetPid ++ "_path_explorer.log")
    · refine ⟨?_, ?_, ?_⟩
      · simp [start_exploring, ofstream_open, hopen, hcan]
      · intro _
        simp [start_exploring, ofstream_open, hopen, hcan]
      · intro h; simp at h
    · refine ⟨?_, ?_, ?_⟩
      · simp [start_exploring, ofstream_open, hopen, hcan]
      · intro h
        simp [start_exploring, ofstream_open, hopen, hcan] at h
      · intro _
        cases hfast : env.ENABLE_FAST_ROLLBACK <;>
          simp [start_exploring, ofstream_open, ofstream_write, hopen, hcan, hfast]
  · refine ⟨?_, ?_, ?_⟩
    · simp [start_exploring, ofstream_open, hopen]
    · intro _
      simp [start_exploring, ofstream_open, hopen]
    · intro h; simp at h

/-- C8 at a concrete input: from the statically initialised globals, with a
file system that refuses every file, the call ends through
`PIN_ExitProcess(1)` and `instrumentation::initialize()` is not called. -/
theorem C8_start_exploring_aborts_witness :
    (start_exploring
        { gnu_linux := false, ENABLE_FAST_ROLLBACK := false, option_r := none,
          option_t := none, option_l := none, option_i := none, PIN_GetPid := 42,
          explorer_graph_instance := 1, execution_dfa_instance := 2, syscall_inexist := 0,
          can_open := fun _ => false }
        globals.static_init).ending = call_end.exited 1 ∧
    (start_exploring
        { gnu_linux := false, ENABLE_FAST_ROLLBACK := false, option_r := none,
          option_t := none, option_l := none, option_i := none, PIN_GetPid := 42,
          explorer_graph_instance := 1, execution_dfa_instance := 2, syscall_inexist := 0,
          can_open := fun _ => false }
        globals.static_init).instrumentation_set_up = false :=
  have h := C8_start_exploring_aborts_iff_log_open_fails
    { gnu_linux := false, ENABLE_FAST_ROLLBACK := false, option_r := none,
      option_t := none, option_l := none, option_i := none, PIN_GetPid := 42,
      explorer_graph_instance := 1, execution_dfa_instance := 2, syscall_inexist := 0,
      can_open := fun _ => false }
    globals.static_init
  ⟨h.1.2 (Or.inr rfl), (h.2.1 (h.1.2 (Or.inr rfl))).1⟩

/-- C9. `start_exploring` installs for each of the four options the value
supplied on the command line, and when none is supplied the defaults
`max_local_rollback_times = 7000`, `max_total_rollback_times = 90000`,
`max_trace_size = 100` and `received_msg_order = 1`; it resets `trace_size`,
`total_rollback_times` and `local_rollback_times` to 0. This holds however the
call ends. -/
theorem C9_start_exploring_installs_options (env : start_env) (g : globals) :
    (start_exploring env g).state.max_local_rollback_times = env.option_r.getD 7000 ∧
    (start_exploring env g).state.max_total_rollback_times = env.option_t.getD 90000 ∧
    (start_exploring env g).state.max_trace_size = env.option_l.getD 100 ∧
    (start_exploring env g).state.received_msg_order = env.option_i.getD 1 ∧
    (start_exploring env g).state.trace_size = 0 ∧
    (start_exploring env g).state.total_rollback_times = 0 ∧
    (start_exploring env g).state.local_rollback_times = 0 := by
  have hval : ∀ (d : UINT32) (o : Option UINT32), (KNOB.mk d o).Value = o.getD d := by
    intro d o; cases o <;> rfl
  unfold start_exploring
  simp only [max_local_rollback_knob, max_total_rollback_knob, max_trace_length_knob,
    interested_input_order_knob, hval]
  split <;> simp

/-! ## The module-load hook -/

/-- A position found by the downward scan holds one of the characters. -/
theorem find_last_of_below_some (str chars : List Char) :
    ∀ (pos : Nat), find_last_of_below str chars pos ≠ none →
      ∃ c, c ∈ str ∧ c ∈ chars := by
  intro pos
  induction pos with
  | zero => intro h; exact absurd rfl h
  | succ pos ih =>
    intro h
    unfold find_last_of_below at h
    cases hp : str.get? pos with
    | none =>
      rw [hp] at h
      exact ih h
    | some d =>
      rw [hp] at h
      by_cases hd : d ∈ chars
      · exact ⟨d, List.get?_mem hp, hd⟩
      · simp only [hd, if_false] at h
        exact ih h

/-- The downward scan finds a position as soon as one is there to find. -/
theorem find_last_of_below_ne_none (str chars : List Char) (c : Char) (hc : c ∈ chars) :
    ∀ (pos i : Nat), i < pos → str.get? i = some c →
      find_last_of_below str chars pos ≠ none := by
  intro pos
  induction pos with
  | zero => intro i hi; omega
  | succ pos ih =>
    intro i hi hget
    unfold find_last_of_below
    cases hp : str.get? pos with
    | none =>
      have hne : i ≠ pos := by
        intro h; rw [h, hp] at hget; cases hget
      exact ih i (by omega) hget
    | some d =>
      by_cases hd : d ∈ chars
      · simp [hd]
      · have hne : i ≠ pos := by
          intro h
          rw [h, hp] at hget
          cases hget
          exact hd hc
        simp only [hd, if_false]
        exact ih i (by omega) hget

/-- The winsock test of `image_load_instrumenter` succeeds exactly when the
module name has at least one character out of those of "WS2_32.dll". -/
theorem winsock_test_iff_shares_a_character (name : String) :
    find_last_of name "WS2_32.dll" ≠ none ↔
      ∃ c, c ∈ name.toList ∧ c ∈ "WS2_32.dll".toList := by
  unfold find_last_of
  constructor
  · exact find_last_of_below_some _ _ _
  · rintro ⟨c, hmem, hc⟩
    obtain ⟨i, hget⟩ := List.mem_iff_get?.mp hmem
    obtain ⟨hi, _⟩ := List.get?_eq_some.mp hget
    exact find_last_of_below_ne_none _ _ c hc _ i hi hget

/-- C10, the code at a failing input. On a Windows build the module
"wsock32.dll", whose name does not contain the string "WS2_32.dll" and which
has routines named recv and recvfrom, passes the winsock test of
`image_load_instrumenter` (`find_last_of` finds the final letter l at
position 10), and both routines are hooked. -/
theorem C10_image_load_instrumenter_hooks_other_module :
    ¬ List.IsInfix "WS2_32.dll".toList "wsock32.dll".toList ∧
    find_last_of "wsock32.dll" "WS2_32.dll" = some 10 ∧
    image_load_instrumenter true ⟨"wsock32.dll", ["recv", "recvfrom"]⟩ =
      instrument_recvs (some "recv") ++ instrument_recvs (some "recvfrom") := by
  refine ⟨by decide, by decide, by decide⟩

/-! ## Claims about the rollbacking phase and the run summary -/

/-- In the rollbacking phase the calls `ins_instrumenter` inserts on an
instruction are those of `exec_rollbacking_phase` for the decoded
instruction. -/
theorem ins_instrumenter_rollbacking_calls {INS : Type} (ENABLE_FAST_ROLLBACK : Bool)
    (new_instruction : INS → instruction) (ins_at_addr : addr_map ptr_instruction_t)
    (ins : INS) :
    (ins_instrumenter ENABLE_FAST_ROLLBACK new_instruction running_phase.rollbacking_state
        ins_at_addr ins).2 =
      exec_rollbacking_phase ENABLE_FAST_ROLLBACK (new_instruction ins) := by
  simp [ins_instrumenter]

/-- With fast rollback compiled in, `exec_rollbacking_phase` registers no
memory-logging call, whatever the instruction. -/
theorem exec_rollbacking_phase_fast_rollback_no_logging (examined_ins : instruction) :
    (exec_rollbacking_phase true examined_ins).filter
      (fun call => decide (call.funptr = AFUNPTR.rollbacking_mem_write_instruction)) = [] := by
  obtain ⟨address, is_syscall, is_mem_read, has_mem_read2, is_mem_write, is_cond⟩ :=
    examined_ins
  cases is_mem_write <;> cases is_cond <;> simp [exec_rollbacking_phase, List.filter]

/-- The counting loop of `stop_exploring`: each 32-bit counter ends at its
entry value plus the number of branches with the flag, modulo `2 ^ 32`. -/
theorem count_cfis_loop_eq :
    ∀ (cfis : List ptr_cond_direct_ins_t) (resolved singular : Nat),
      resolved < 2 ^ 32 → singular < 2 ^ 32 →
      count_cfis_loop cfis (resolved, singular) =
        ((resolved + cfis.countP (fun cfi => cfi.is_resolved)) % 2 ^ 32,
         (singular + cfis.countP (fun cfi => cfi.is_singular)) % 2 ^ 32) := by
  intro cfis
  induction cfis with
  | nil =>
    intro resolved singular hr hs
    have hr0 : resolved % 4294967296 = resolved := Nat.mod_eq_of_lt hr
    have hs0 : singular % 4294967296 = singular := Nat.mod_eq_of_lt hs
    simp [count_cfis_loop, hr0, hs0]
  | cons cfi rest ih =>
    intro resolved singular hr hs
    have hr1 : (resolved + 1) % 2 ^ 32 < 2 ^ 32 := Nat.mod_lt _ (by norm_num)
    have hs1 : (singular + 1) % 2 ^ 32 < 2 ^ 32 := Nat.mod_lt _ (by norm_num)
    have hra : ∀ n : Nat, ((resolved + 1) % 2 ^ 32 + n) % 2 ^ 32 = (resolved + (n + 1)) % 2 ^ 32 := by
      intro n; omega
    have hsa : ∀ n : Nat, ((singular + 1) % 2 ^ 32 + n) % 2 ^ 32 = (singular + (n + 1)) % 2 ^ 32 := by
      intro n; omega
    cases hres : cfi.is_resolved <;> cases hsing : cfi.is_singular
    · simp only [count_cfis_loop, hres, hsing, Bool.false_eq_true, if_false]
      rw [ih _ _ hr hs]
      simp [List.countP_cons, hres, hsing]
    · simp only [count_cfis_loop, hres, hsing, Bool.false_eq_true, if_false, if_true]
      rw [ih _ _ hr hs1, hsa]
      simp [List.countP_cons, hres, hsing]
    · simp only [count_cfis_loop, hres, hsing, Bool.false_eq_true, if_false, if_true]
      rw [ih _ _ hr1 hs, hra]
      simp [List.countP_cons, hres, hsing]
    · simp only [count_cfis_loop, hres, hsing, if_true]
      rw [ih _ _ hr1 hs1, hra, hsa]
      simp [List.countP_cons, hres, hsing]

/-- C12. Whatever `start_time` holds and whatever the clock returns when
`stop_exploring` is entered, the summary line it appends to the open run log
carries 0 as its elapsed-seconds figure, because `start_time` has been set to
`stop_time` before the line is formatted; the time the run took is printed on
`std::cerr` only. The other figures of the line are `total_rollback_times`,
the two 32-bit counters of the branches of `detected_input_dep_cfis` with
`is_resolved` and with `is_singular`, and the size of the container; for a
container of fewer than `2 ^ 32` branches the counters are the actual
numbers of resolved and of singular branches. -/
theorem C12_summary_line_elapsed_is_zero (env : stop_env) (g : globals)
    (hopen : g.log_file.is_open = true) (hgood : g.log_file.failbit = false) :
    (stop_exploring env g).state.log_file.written =
      g.log_file.written ++
        [log_record.summary 0 g.total_rollback_times
          (g.detected_input_dep_cfis.countP (fun cfi => cfi.is_resolved) % 2 ^ 32)
          (g.detected_input_dep_cfis.countP (fun cfi => cfi.is_singular) % 2 ^ 32)
          g.detected_input_dep_cfis.length] ∧
    (g.detected_input_dep_cfis.length < 2 ^ 32 →
      (stop_exploring env g).state.log_file.written =
        g.log_file.written ++
          [log_record.summary 0 g.total_rollback_times
            (g.detected_input_dep_cfis.countP (fun cfi => cfi.is_resolved))
            (g.detected_input_dep_cfis.countP (fun cfi => cfi.is_singular))
            g.detected_input_dep_cfis.length]) ∧
    (stop_exploring env g).steps.head? =
      some (stop_step.cerr_seconds_elapsed_for_generating_dfa
        (env.time_at_entry - g.start_time)) := by
  have hcount := count_cfis_loop_eq g.detected_input_dep_cfis 0 0 (by norm_num) (by norm_num)
  simp only [Nat.zero_add] at hcount
  have hwritten :
      (stop_exploring env g).state.log_file.written =
        g.log_file.written ++
          [log_record.summary 0 g.total_rollback_times
            (g.detected_input_dep_cfis.countP (fun cfi => cfi.is_resolved) % 2 ^ 32)
            (g.detected_input_dep_cfis.countP (fun cfi => cfi.is_singular) % 2 ^ 32)
            g.detected_input_dep_cfis.length] := by
    simp only [stop_exploring, hcount]
    simp [ofstream_write, ofstream_close, hopen, hgood]
  refine ⟨hwritten, ?_, ?_⟩
  · intro hsize
    have hres : g.detected_input_dep_cfis.countP (fun cfi => cfi.is_resolved) < 2 ^ 32 :=
      Nat.lt_of_le_of_lt (List.countP_le_length _) hsize
    have hsing : g.detected_input_dep_cfis.countP (fun cfi => cfi.is_singular) < 2 ^ 32 :=
      Nat.lt_of_le_of_lt (List.countP_le_length _) hsize
    rw [hwritten, Nat.mod_eq_of_lt hres, Nat.mod_eq_of_lt hsing]
  · simp [stop_exploring]

/-- C12 at a concrete input: the run started at time 1000 and ends at time
4600, five rollbacks were used, and of three detected branches two are
resolved and one is singular; the summary line reads 0 seconds, 5 rollbacks,
2/1/3. -/
theorem C12_summary_line_elapsed_is_zero_witness :
    (stop_exploring { time_at_entry := 4600, time_at_return := 4700 }
      { globals.static_init with
        total_rollback_times := 5
        start_time := 1000
        log_file := { is_open := true, failbit := false, file_name := "42_path_explorer.log",
                      written := [log_record.separator_line] }
        detected_input_dep_cfis :=
          [{ address := 4096, is_syscall := false, is_mem_read := false,
             has_mem_read2 := false, is_mem_write := false, is_cond_direct_cf := true,
             is_resolved := true, is_bypassed := false, is_singular := false },
           { address := 4200, is_syscall := false, is_mem_read := false,
             has_mem_read2 := false, is_mem_write := false, is_cond_direct_cf := true,
             is_resolved := true, is_bypassed := false, is_singular := false },
           { address := 4300, is_syscall := false, is_mem_read := false,
             has_mem_read2 := false, is_mem_write := false, is_cond_direct_cf := true,
             is_resolved := false, is_bypassed := false, is_singular := true }] }).state.log_file.written
      = [log_record.separator_line, log_record.summary 0 5 2 1 3] :=
  (C12_summary_line_elapsed_is_zero { time_at_entry := 4600, time_at_return := 4700 }
    { globals.static_init with
      total_rollback_times := 5
      start_time := 1000
      log_file := { is_open := true, failbit := false, file_name := "42_path_explorer.log",
                    written := [log_record.separator_line] }
      detected_input_dep_cfis :=
        [{ address := 4096, is_syscall := false, is_mem_read := false,
           has_mem_read2 := false, is_mem_write := false, is_cond_direct_cf := true,
           is_resolved := true, is_bypassed := false, is_singular := false },
         { address := 4200, is_syscall := false, is_mem_read := false,
           has_mem_read2 := false, is_mem_write := false, is_cond_direct_cf := true,
           is_resolved := true, is_bypassed := false, is_singular := false },
         { address := 4300, is_syscall := false, is_mem_read := false,
           has_mem_read2 := false, is_mem_write := false, is_cond_direct_cf := true,
           is_resolved := false, is_bypassed := false, is_singular := true }] }
    rfl rfl).2.1 (by norm_num [globals.static_init])

end PathExplorer
